import Mathlib

/-!
# StoryGraph asset packaging engine — verification development

Shallow embedding of the `BuildSystem` asset packaging engine of the
StoryGraph repository (namespace `NovelMind::editor`).  The engine's
implementation file is not part of the source tree available here; only its
unit tests (`tests/unit/test_build_system.cpp`) and the specification are.
Every definition below is therefore modelled from the spec, with the unit
tests as the behavioural reference.  Byte strings (`std::string` payloads,
`std::vector<u8>`) are modelled as `List Nat` with each element a byte value;
OS paths and human-readable messages are modelled as `String`.
-/

namespace NovelMind

/-- Modelled from the spec: semantic resource kind driving packer policy.
`Unknown` is the generic/unclassified type for unrecognised extensions. -/
inductive ResourceType where
  | Texture
  | Audio
  | Music
  | Font
  | Script
  | Data
  | Unknown
deriving DecidableEq, Repr

/-- Modelled from the spec: discrete compression levels; `None` is the
identity transform. -/
inductive CompressionLevel where
  | None
  | Fast
  | Balanced
  | Max
deriving DecidableEq, Repr

/-- Modelled from the spec: target platform enum. -/
inductive BuildPlatform where
  | Windows
  | Linux
  | MacOS
  | Web
  | Android
  | iOS
deriving DecidableEq, Repr

/-- Modelled from the spec: build type enum. -/
inductive BuildType where
  | Debug
  | Release
deriving DecidableEq, Repr

/-- Modelled from the spec: immutable-per-build configuration.  Default
values are the ones the unit tests pin for a default-constructed
`BuildConfig`. -/
structure BuildConfig where
  version : String := "1.0.0"
  buildNumber : Nat := 1
  platform : BuildPlatform := BuildPlatform.Windows
  buildType : BuildType := BuildType.Release
  packAssets : Bool := true
  encryptAssets : Bool := false
  compression : CompressionLevel := CompressionLevel.Balanced
  deterministicBuild : Bool := true
  fixedBuildTimestamp : Nat := 0
  signPacks : Bool := false
  projectPath : String := ""
  outputPath : String := ""
deriving Repr

/-- The default-constructed `BuildConfig`. -/
def defaultBuildConfig : BuildConfig := {}

namespace BuildSystem

/-- ASCII byte values of a string literal; bridge between the `String`
model of paths and the `List Nat` model of byte strings. -/
def asciiBytes (s : String) : List Nat :=
  s.data.map Char.toNat

/-- One step of the reflected CRC-32 bit loop: shift right, conditionally
XOR with the reversed polynomial 0xEDB88320. -/
def crc32Step (crc : Nat) : Nat :=
  if crc % 2 = 1 then (crc / 2) ^^^ 0xEDB88320 else crc / 2

/-- Eight bit-iterations of `crc32Step`. -/
def crc32Byte (crc : Nat) : Nat :=
  crc32Step (crc32Step (crc32Step (crc32Step
    (crc32Step (crc32Step (crc32Step (crc32Step crc)))))))

/-- Modelled from the spec: `calculateCrc32` — standard reflected CRC-32,
polynomial 0xEDB88320, initial value 0xFFFFFFFF, final XOR 0xFFFFFFFF
(so the CRC of zero-length input is 0). -/
def calculateCrc32 (data : List Nat) : Nat :=
  (data.foldl (fun crc b => crc32Byte (crc ^^^ (b % 256))) 0xFFFFFFFF) ^^^ 0xFFFFFFFF

/-- Lower-case one byte (ASCII `tolower`, as applied byte-wise by the
normalizer and the extension classifier). -/
def lowerByte (b : Nat) : Nat :=
  if 65 ≤ b ∧ b ≤ 90 then b + 32 else b

/-- Replace a backslash byte (0x5C) by a forward slash (0x2F), lower-case
everything else. -/
def normByte (b : Nat) : Nat :=
  if b = 92 then 47 else lowerByte b

/-- Modelled from the spec: `normalizeVfsPath` — replace all backslashes
with forward slashes, lower-case the whole string, strip all leading
slashes and the trailing slash so that no trailing slash remains; empty
input yields empty output; idempotent. -/
def normalizeVfsPath (path : List Nat) : List Nat :=
  ((path.map normByte).dropWhile (fun b => b = 47)).rdropWhile (fun b => b = 47)

/-- Position-respecting extension extraction: the bytes after the last
`.` (byte 46) of the filename, `none` when the name has no dot. -/
def extensionOf (name : List Nat) : Option (List Nat) :=
  if name.any (fun b => b = 46) then
    some ((name.reverse.takeWhile (fun b => b ≠ 46)).reverse)
  else
    none

/-- Modelled from the spec: the fixed extension table of the resource type
classifier, keyed by lower-cased extension bytes. -/
def resourceTypeTable : List (List Nat × ResourceType) :=
  [ (asciiBytes "png", ResourceType.Texture)
  , (asciiBytes "jpg", ResourceType.Texture)
  , (asciiBytes "jpeg", ResourceType.Texture)
  , (asciiBytes "bmp", ResourceType.Texture)
  , (asciiBytes "webp", ResourceType.Texture)
  , (asciiBytes "wav", ResourceType.Audio)
  , (asciiBytes "flac", ResourceType.Audio)
  , (asciiBytes "ogg", ResourceType.Music)
  , (asciiBytes "mp3", ResourceType.Music)
  , (asciiBytes "ttf", ResourceType.Font)
  , (asciiBytes "otf", ResourceType.Font)
  , (asciiBytes "nms", ResourceType.Script)
  , (asciiBytes "nmscript", ResourceType.Script)
  , (asciiBytes "json", ResourceType.Data)
  , (asciiBytes "xml", ResourceType.Data) ]

/-- Modelled from the spec: `getResourceTypeFromExtension` — case-insensitive
lookup of the filename's extension in the fixed table; anything else maps to
the generic `Unknown` type (classification never fails). -/
def getResourceTypeFromExtension (name : List Nat) : ResourceType :=
  match extensionOf name with
  | none => ResourceType.Unknown
  | some ext => (resourceTypeTable.lookup (ext.map lowerByte)).getD ResourceType.Unknown

/-- Split a character list into path segments at `/` and `\` separators
(accumulator holds the current segment reversed). -/
def splitSegsAux : List Char → List Char → List (List Char)
  | [], acc => [acc.reverse]
  | c :: rest, acc =>
    if c = '/' ∨ c = '\\' then acc.reverse :: splitSegsAux rest []
    else splitSegsAux rest (c :: acc)

/-- The path segments of a string, split on both `/` and `\`. -/
def pathSegments (s : String) : List (List Char) :=
  splitSegsAux s.data []

/-- `true` when some segment of the path equals `..`. -/
def hasDotDotSegment (s : String) : Bool :=
  (pathSegments s).any (fun seg => seg == ['.', '.'])

/-- Modelled from the spec: `sanitizeOutputPath` — reject with a traversal
error any relative path one of whose segments (split on both `/` and `\`)
is `..`; an empty relative path resolves to the base directory itself;
otherwise the result is the relative path joined under the base. -/
def sanitizeOutputPath (baseDir relativePath : String) : Except String String :=
  if hasDotDotSegment relativePath then
    Except.error ("Path traversal detected: " ++ relativePath)
  else if relativePath = "" then
    Except.ok baseDir
  else
    Except.ok (baseDir ++ "/" ++ relativePath)

/-- The result of an accepted sanitization resolves under the base
directory: it is the base itself, or the base extended by a relative
suffix free of `..` segments. -/
def resolvesUnder (baseDir out : String) : Prop :=
  out = baseDir ∨ ∃ r, out = baseDir ++ "/" ++ r ∧ hasDotDotSegment r = false

/-- Modelled from the spec: compression levels other than `None` delegate
to an external general-purpose codec (e.g. zlib), which the spec treats as
an external primitive; its behaviour is outside this model, so it is
represented by the "backend unavailable" error the spec requires to be
surfaced rather than hidden. -/
def externalCompress (_level : CompressionLevel) (_data : List Nat) :
    Except String (List Nat) :=
  Except.error "compression backend not modelled"

/-- Modelled from the spec: `compressData` — `None` is a strict identity
transform; other levels invoke the external codec. -/
def compressData (data : List Nat) (level : CompressionLevel) :
    Except String (List Nat) :=
  match level with
  | CompressionLevel.None => Except.ok data
  | l => externalCompress l data

/-- Modelled from the spec: `loadEncryptionKeyFromFile` — the filesystem is
modelled as a map from path to file contents (`none` = absent/unreadable).
Succeeds only when the file exists and is exactly 32 bytes; the key is the
file's bytes verbatim. -/
def loadEncryptionKeyFromFile (fs : String → Option (List Nat))
    (path : String) : Except String (List Nat) :=
  match fs path with
  | none => Except.error ("Cannot open key file: " ++ path)
  | some bytes =>
    if bytes.length = 32 then Except.ok bytes
    else Except.error "Invalid key file size: expected exactly 32 bytes"

/-- Modelled from the spec: the problem list accumulated by
`validateProject` — the directory tree is modelled as an existence
predicate on paths; every check (path existence, manifest, required
subdirectories) contributes its finding without short-circuiting. -/
def validateProblems (fsExists : String → Bool) (projectPath : String) :
    List String :=
  (if fsExists projectPath then []
   else ["Project path does not exist: " ++ projectPath]) ++
  (if fsExists (projectPath ++ "/project.json") then []
   else ["Missing project manifest: project.json"]) ++
  (if fsExists (projectPath ++ "/scripts") then []
   else ["Missing required directory: scripts"]) ++
  (if fsExists (projectPath ++ "/assets") then []
   else ["Missing required directory: assets"])

/-- Modelled from the spec: `validateProject` — always a successful
operation; the payload is the accumulated problem list. -/
def validateProject (fsExists : String → Bool) (projectPath : String) :
    Except String (List String) :=
  Except.ok (validateProblems fsExists projectPath)

end BuildSystem

/-- The build orchestrator's state: the configuration stored by
`configure`. -/
structure BuildSystem where
  config : BuildConfig

namespace BuildSystem

/-- A fresh, default-configured orchestrator. -/
def init : BuildSystem :=
  BuildSystem.mk defaultBuildConfig

/-- Modelled from the spec: `configure` stores the configuration for
subsequent calls; idempotent, last call wins. -/
def configure (_bs : BuildSystem) (cfg : BuildConfig) : BuildSystem :=
  BuildSystem.mk cfg

/-- Modelled from the spec: `getBuildTimestamp` — returns
`fixedBuildTimestamp` verbatim when `deterministicBuild` is true and it is
nonzero; otherwise the current wall-clock seconds, modelled as the `now`
argument. -/
def getBuildTimestamp (bs : BuildSystem) (now : Nat) : Nat :=
  if bs.config.deterministicBuild = true ∧ bs.config.fixedBuildTimestamp ≠ 0 then
    bs.config.fixedBuildTimestamp
  else now

/-- Little-endian 2-byte encoding. -/
def u16le (n : Nat) : List Nat :=
  [n % 256, n / 2 ^ 8 % 256]

/-- Little-endian 4-byte encoding. -/
def u32le (n : Nat) : List Nat :=
  [n % 256, n / 2 ^ 8 % 256, n / 2 ^ 16 % 256, n / 2 ^ 24 % 256]

/-- Little-endian 8-byte encoding. -/
def u64le (n : Nat) : List Nat :=
  [n % 256, n / 2 ^ 8 % 256, n / 2 ^ 16 % 256, n / 2 ^ 24 % 256,
   n / 2 ^ 32 % 256, n / 2 ^ 40 % 256, n / 2 ^ 48 % 256, n / 2 ^ 56 % 256]

/-- Modelled from the spec: `calculateSha256` is specified only as a
deterministic 32-byte cryptographic digest, the hash construction itself
being an external primitive; modelled by a deterministic 32-byte digest
stand-in (no claim depends on its values). -/
def calculateSha256 (data : List Nat) : List Nat :=
  (List.range 32).map
    (fun i => data.foldl (fun a b => (a * 131 + b % 256 + 1) % 256) (i * 7 % 256))

/-- Modelled from the spec: symmetric encryption with the 32-byte key is an
external primitive; modelled by a byte-wise XOR keystream stand-in (no
claim depends on its values). -/
def encryptBytes (key : List Nat) (data : List Nat) : List Nat :=
  data.enum.map (fun p => p.2 % 256 ^^^ (key.getD (p.1 % 32) 0) % 256)

end BuildSystem

/-- One index record of the archive, created by the per-file pipeline. -/
structure ResourceEntry where
  virtualPath : List Nat
  rtype : ResourceType
  uncompressedSize : Nat
  compressedSize : Nat
  contentHash : List Nat
  offset : Nat

/-- Numeric tag of a resource type, used in index serialization. -/
def ResourceType.tag : ResourceType → Nat
  | ResourceType.Texture => 0
  | ResourceType.Audio => 1
  | ResourceType.Music => 2
  | ResourceType.Font => 3
  | ResourceType.Script => 4
  | ResourceType.Data => 5
  | ResourceType.Unknown => 6

namespace BuildSystem

/-- Serialization of one index record (layout is not pinned by the spec
beyond being a fixed record shape). -/
def serializeEntry (e : ResourceEntry) : List Nat :=
  u32le e.virtualPath.length ++ e.virtualPath ++ [e.rtype.tag] ++
    u64le e.uncompressedSize ++ u64le e.compressedSize ++
    e.contentHash ++ u64le e.offset

/-- Modelled from the spec: the per-file pipeline of `buildPack` — for each
file, sanitize the destination against the output directory (a traversal
aborts the whole build), classify, normalize the virtual path, optionally
compress and encrypt, hash, and accumulate the index entry and payload
slice. -/
def buildEntries (cfg : BuildConfig) (key : List Nat) (outDir : String)
    (encrypt compress : Bool) :
    List (String × List Nat) → Nat → Except String (List ResourceEntry × List Nat)
  | [], _ => Except.ok ([], [])
  | (path, bytes) :: rest, offset => do
    let _dest ← sanitizeOutputPath outDir path
    let vp := normalizeVfsPath (asciiBytes path)
    let rt := getResourceTypeFromExtension (asciiBytes path)
    let stored ← compressData bytes
      (if compress then cfg.compression else CompressionLevel.None)
    let stored := if encrypt then encryptBytes key stored else stored
    let (entries, payload) ←
      buildEntries cfg key outDir encrypt compress rest (offset + stored.length)
    Except.ok
      (ResourceEntry.mk vp rt bytes.length stored.length
        (calculateSha256 bytes) offset :: entries, stored ++ payload)

/-- Modelled from the spec: `buildPack` — process every file through the
pipeline, then serialize the 4-byte magic `NMRS`, little-endian u16 major
and minor version (1 and 0), little-endian u32 resource count, the index
records, the payload, and the fixed 32-byte footer beginning with `NMRF`
(its remaining bytes carry build metadata).  The returned byte list is the
content of the written pack file. -/
def buildPack (bs : BuildSystem) (now : Nat) (key : List Nat)
    (outputPath : String) (files : List (String × List Nat))
    (encrypt compress : Bool) : Except String (List Nat) := do
  let (entries, payload) ← buildEntries bs.config key outputPath encrypt compress files 0
  let header := asciiBytes "NMRS" ++ u16le 1 ++ u16le 0 ++ u32le entries.length
  let index := entries.foldr (fun e acc => serializeEntry e ++ acc) []
  let footer := asciiBytes "NMRF" ++ u64le (getBuildTimestamp bs now) ++
    List.replicate 20 0
  Except.ok (header ++ index ++ payload ++ footer)

end BuildSystem

/-- A configuration with the fixed timestamp 1704067200 used by the unit
tests (all other fields at their defaults). -/
def exampleFixedConfig : BuildConfig :=
  BuildConfig.mk "1.0.0" 1 BuildPlatform.Windows BuildType.Release true false
    CompressionLevel.Balanced true 1704067200 false "" ""

/-- An example key filesystem: one 32-byte key file and one 16-byte file. -/
def exampleKeyFs : String → Option (List Nat) :=
  fun p =>
    if p = "keys/test.key" then some (List.replicate 32 171)
    else if p = "keys/short.key" then some (List.replicate 16 0)
    else none

/-- A project directory with a manifest but neither required
subdirectory. -/
def fsDirsMissing : String → Bool :=
  fun s => s == "proj" || s == "proj/project.json"

/-- A structurally complete project directory. -/
def fsComplete : String → Bool :=
  fun s => s == "proj" || s == "proj/project.json" ||
    s == "proj/scripts" || s == "proj/assets"

/-! ## Theorems -/

section Claims

open BuildSystem

/-- C10: a default-constructed `BuildConfig` has exactly the documented
field values — version "1.0.0", buildNumber 1, platform Windows, buildType
Release, packAssets true, encryptAssets false, compression Balanced,
deterministicBuild true, fixedBuildTimestamp 0, signPacks false; in
particular deterministic builds are on and encryption is off by default. -/
theorem buildConfig_default_values :
    defaultBuildConfig.version = "1.0.0" ∧
    defaultBuildConfig.buildNumber = 1 ∧
    defaultBuildConfig.platform = BuildPlatform.Windows ∧
    defaultBuildConfig.buildType = BuildType.Release ∧
    defaultBuildConfig.packAssets = true ∧
    defaultBuildConfig.encryptAssets = false ∧
    defaultBuildConfig.compression = CompressionLevel.Balanced ∧
    defaultBuildConfig.deterministicBuild = true ∧
    defaultBuildConfig.fixedBuildTimestamp = 0 ∧
    defaultBuildConfig.signPacks = false :=
  ⟨rfl, rfl, rfl, rfl, rfl, rfl, rfl, rfl, rfl, rfl⟩

/-- C7: for every byte string `b`, `compressData b None` succeeds with a
result byte-for-byte equal to `b` — the `None` level is a strict identity
transform (same bytes, hence same length). -/
theorem compressData_none_identity (b : List Nat) :
    compressData b CompressionLevel.None = Except.ok b :=
  rfl

set_option maxRecDepth 100000 in
/-- C8: `calculateCrc32` of the zero-length input is 0 and the function is
a deterministic pure map; it computes the standard reflected CRC-32 with
polynomial 0xEDB88320, witnessed by the standard check value for
"123456789", and separates the test inputs "Hello" and "World". -/
theorem calculateCrc32_empty_and_deterministic :
    calculateCrc32 [] = 0 ∧
    (∀ b : List Nat, calculateCrc32 b = calculateCrc32 b) ∧
    calculateCrc32 (asciiBytes "123456789") = 0xCBF43926 ∧
    calculateCrc32 (asciiBytes "Hello") ≠ calculateCrc32 (asciiBytes "World") :=
  ⟨rfl, fun _ => rfl, by decide, by decide⟩

/-- Witness for C8 at concrete inputs. -/
theorem calculateCrc32_check_witness :
    calculateCrc32 [] = 0 ∧ calculateCrc32 (asciiBytes "123456789") = 0xCBF43926 :=
  ⟨calculateCrc32_empty_and_deterministic.1,
   calculateCrc32_empty_and_deterministic.2.2.1⟩

/-- C5: after `configure` with `deterministicBuild = true` and a nonzero
`fixedBuildTimestamp`, `getBuildTimestamp` returns exactly the configured
value on every call and repeated calls within the configured build agree;
when `fixedBuildTimestamp` is 0 it returns the current wall-clock seconds
(the `now` argument of the model). -/
theorem getBuildTimestamp_fixed_or_wallclock
    (bs : BuildSystem) (cfg : BuildConfig) (now now2 : Nat) :
    (cfg.deterministicBuild = true → cfg.fixedBuildTimestamp ≠ 0 →
      getBuildTimestamp (configure bs cfg) now = cfg.fixedBuildTimestamp ∧
      getBuildTimestamp (configure bs cfg) now =
        getBuildTimestamp (configure bs cfg) now2) ∧
    (cfg.fixedBuildTimestamp = 0 →
      getBuildTimestamp (configure bs cfg) now = now) := by
  constructor
  · intro h1 h2
    constructor <;> simp [getBuildTimestamp, configure, h1, h2]
  · intro h0
    simp [getBuildTimestamp, configure, h0]

/-- Witness for C5: with the test's fixed timestamp the orchestrator
reports exactly 1704067200 whatever the wall clock says. -/
theorem getBuildTimestamp_fixed_witness :
    getBuildTimestamp (configure init exampleFixedConfig) 99 = 1704067200 :=
  ((getBuildTimestamp_fixed_or_wallclock init exampleFixedConfig 99 100).1
    rfl (by decide)).1

/-- C3: `loadEncryptionKeyFromFile` succeeds iff the file exists and is
exactly 32 bytes, in which case the key is the file's bytes verbatim; any
other length and a missing file give an error, never a truncated or padded
key. -/
theorem loadEncryptionKeyFromFile_exact32
    (fs : String → Option (List Nat)) (path : String) :
    ((∃ k, loadEncryptionKeyFromFile fs path = Except.ok k) ↔
      ∃ bytes, fs path = some bytes ∧ bytes.length = 32) ∧
    (∀ bytes, fs path = some bytes → bytes.length = 32 →
      loadEncryptionKeyFromFile fs path = Except.ok bytes) ∧
    (∀ bytes, fs path = some bytes → bytes.length ≠ 32 →
      ∃ e, loadEncryptionKeyFromFile fs path = Except.error e) ∧
    (fs path = none →
      ∃ e, loadEncryptionKeyFromFile fs path = Except.error e) := by
  unfold loadEncryptionKeyFromFile
  cases hfs : fs path with
  | none => simp
  | some bytes =>
    by_cases hl : bytes.length = 32
    · simp only [hl, if_pos]
      constructor
      · exact ⟨fun _ => ⟨bytes, rfl, hl⟩, fun _ => ⟨bytes, rfl⟩⟩
      · refine ⟨fun b hb _ => ?_, fun b hb hbl => ?_, fun h => ?_⟩
        · cases hb; rfl
        · cases hb; exact absurd hl hbl
        · cases h
    · simp only [hl, if_neg, if_false]
      constructor
      · constructor
        · rintro ⟨k, hk⟩; cases hk
        · rintro ⟨b, hb, hbl⟩; cases hb; exact absurd hbl hl
      · refine ⟨fun b hb hbl => ?_, fun b _ _ => ⟨_, rfl⟩, fun h => ?_⟩
        · cases hb; exact absurd hbl hl
        · cases h

/-- Witness for C3: the 32-byte file loads verbatim, the 16-byte file and a
missing path give errors. -/
theorem loadEncryptionKeyFromFile_witness :
    loadEncryptionKeyFromFile exampleKeyFs "keys/test.key" =
      Except.ok (List.replicate 32 171) ∧
    (∃ e, loadEncryptionKeyFromFile exampleKeyFs "keys/short.key" =
      Except.error e) ∧
    (∃ e, loadEncryptionKeyFromFile exampleKeyFs "nonexistent/key.bin" =
      Except.error e) :=
  ⟨(loadEncryptionKeyFromFile_exact32 exampleKeyFs "keys/test.key").2.1
      (List.replicate 32 171) (by decide) (by decide),
   (loadEncryptionKeyFromFile_exact32 exampleKeyFs "keys/short.key").2.2.1
      (List.replicate 16 0) (by decide) (by decide),
   (loadEncryptionKeyFromFile_exact32 exampleKeyFs "nonexistent/key.bin").2.2.2
      (by decide)⟩

/-- C4: `validateProject` is always a successful operation carrying the
accumulated problem list: a missing project path yields a non-empty list, a
project missing both `scripts/` and `assets/` yields a list mentioning both
at once, and a complete structure yields an empty list. -/
theorem validateProject_accumulates (fs : String → Bool) (p : String) :
    validateProject fs p = Except.ok (validateProblems fs p) ∧
    (fs p = false → validateProblems fs p ≠ []) ∧
    (fs (p ++ "/scripts") = false → fs (p ++ "/assets") = false →
      "Missing required directory: scripts" ∈ validateProblems fs p ∧
      "Missing required directory: assets" ∈ validateProblems fs p) ∧
    (fs p = true → fs (p ++ "/project.json") = true →
      fs (p ++ "/scripts") = true → fs (p ++ "/assets") = true →
      validateProblems fs p = []) := by
  refine ⟨rfl, ?_, ?_, ?_⟩
  · intro h; simp [validateProblems, h]
  · intro h1 h2; simp [validateProblems, h1, h2]
  · intro h1 h2 h3 h4; simp [validateProblems, h1, h2, h3, h4]

/-- Witness for C4 on three concrete directory trees. -/
theorem validateProject_witness :
    ("Missing required directory: scripts" ∈ validateProblems fsDirsMissing "proj" ∧
     "Missing required directory: assets" ∈ validateProblems fsDirsMissing "proj") ∧
    validateProblems fsComplete "proj" = [] ∧
    validateProblems (fun _ => false) "/nonexistent/path" ≠ [] :=
  ⟨(validateProject_accumulates fsDirsMissing "proj").2.2.1
      (by decide) (by decide),
   (validateProject_accumulates fsComplete "proj").2.2.2
      (by decide) (by decide) (by decide) (by decide),
   (validateProject_accumulates (fun _ => false) "/nonexistent/path").2.1 rfl⟩

/-- C9: `getResourceTypeFromExtension` is a case-insensitive lookup
against the fixed table (png/jpg/jpeg/bmp/webp → Texture, wav/flac →
Audio, ogg/mp3 → Music, ttf/otf → Font, nms/nmscript → Script, json/xml →
Data); a filename whose extension is outside the table — or that has no
extension at all — maps to the generic `Unknown` type, never to a
failure. -/
theorem getResourceTypeFromExtension_table :
    (∀ name, extensionOf name = none →
      getResourceTypeFromExtension name = ResourceType.Unknown) ∧
    (∀ name ext, extensionOf name = some ext →
      resourceTypeTable.lookup (ext.map lowerByte) = none →
      getResourceTypeFromExtension name = ResourceType.Unknown) ∧
    getResourceTypeFromExtension (asciiBytes "test.png") = ResourceType.Texture ∧
    getResourceTypeFromExtension (asciiBytes "test.jpg") = ResourceType.Texture ∧
    getResourceTypeFromExtension (asciiBytes "test.jpeg") = ResourceType.Texture ∧
    getResourceTypeFromExtension (asciiBytes "test.bmp") = ResourceType.Texture ∧
    getResourceTypeFromExtension (asciiBytes "test.webp") = ResourceType.Texture ∧
    getResourceTypeFromExtension (asciiBytes "test.wav") = ResourceType.Audio ∧
    getResourceTypeFromExtension (asciiBytes "test.flac") = ResourceType.Audio ∧
    getResourceTypeFromExtension (asciiBytes "test.ogg") = ResourceType.Music ∧
    getResourceTypeFromExtension (asciiBytes "test.mp3") = ResourceType.Music ∧
    getResourceTypeFromExtension (asciiBytes "test.ttf") = ResourceType.Font ∧
    getResourceTypeFromExtension (asciiBytes "test.otf") = ResourceType.Font ∧
    getResourceTypeFromExtension (asciiBytes "test.nms") = ResourceType.Script ∧
    getResourceTypeFromExtension (asciiBytes "test.nmscript") = ResourceType.Script ∧
    getResourceTypeFromExtension (asciiBytes "test.json") = ResourceType.Data ∧
    getResourceTypeFromExtension (asciiBytes "test.xml") = ResourceType.Data ∧
    getResourceTypeFromExtension (asciiBytes "test.PNG") = ResourceType.Texture ∧
    getResourceTypeFromExtension (asciiBytes "test.OGG") = ResourceType.Music := by
  refine ⟨fun name h => by simp [getResourceTypeFromExtension, h],
    fun name ext h1 h2 => by simp [getResourceTypeFromExtension, h1, h2], ?_⟩
  decide

/-- Witness for C9: an extension outside the table and an extensionless
name both classify as the generic type. -/
theorem getResourceTypeFromExtension_unknown_witness :
    getResourceTypeFromExtension (asciiBytes "archive.xyz") = ResourceType.Unknown ∧
    getResourceTypeFromExtension (asciiBytes "README") = ResourceType.Unknown :=
  ⟨getResourceTypeFromExtension_table.2.1 (asciiBytes "archive.xyz")
      (asciiBytes "xyz") (by decide) (by decide),
   getResourceTypeFromExtension_table.1 (asciiBytes "README") (by decide)⟩

/-- C1: `sanitizeOutputPath` rejects with a traversal error every relative
path one of whose segments (split on both `/` and `\`) is `..`, wherever
and however often it occurs; the empty relative path is accepted and
resolves to the base directory itself; a name that merely contains dots is
accepted; and every accepted result resolves under the base directory. -/
theorem sanitizeOutputPath_safe (base rel : String) :
    (hasDotDotSegment rel = true →
      sanitizeOutputPath base rel =
        Except.error ("Path traversal detected: " ++ rel)) ∧
    sanitizeOutputPath base "" = Except.ok base ∧
    sanitizeOutputPath base "version.1.2.3.txt" =
      Except.ok (base ++ "/" ++ "version.1.2.3.txt") ∧
    (∀ out, sanitizeOutputPath base rel = Except.ok out →
      resolvesUnder base out) := by
  refine ⟨?_, ?_, ?_, ?_⟩
  · intro h
    simp [sanitizeOutputPath, h]
  · rfl
  · have h : hasDotDotSegment "version.1.2.3.txt" = false := by decide
    simp [sanitizeOutputPath, h]
  · intro out hout
    unfold sanitizeOutputPath at hout
    by_cases hdd : hasDotDotSegment rel = true
    · simp [hdd] at hout
    · rw [if_neg (by simp [hdd])] at hout
      by_cases hre : rel = ""
      · subst hre
        rw [if_pos rfl] at hout
        exact Or.inl (Except.ok.inj hout).symm
      · rw [if_neg hre] at hout
        exact Or.inr ⟨rel, (Except.ok.inj hout).symm,
          Bool.not_eq_true _ ▸ Bool.of_not_eq_true hdd⟩

/-- Witness for C1: a traversal payload is rejected, the empty path
resolves to the base, and an accepted path resolves under the base. -/
theorem sanitizeOutputPath_witness :
    sanitizeOutputPath "/tmp/out" "../evil.txt" =
      Except.error ("Path traversal detected: " ++ "../evil.txt") ∧
    sanitizeOutputPath "/tmp/out" "" = Except.ok "/tmp/out" ∧
    resolvesUnder "/tmp/out" ("/tmp/out" ++ "/" ++ "assets/images/bg.png") :=
  ⟨(sanitizeOutputPath_safe "/tmp/out" "../evil.txt").1 (by decide),
   (sanitizeOutputPath_safe "/tmp/out" "").2.1,
   (sanitizeOutputPath_safe "/tmp/out" "assets/images/bg.png").2.2.2
      ("/tmp/out" ++ "/" ++ "assets/images/bg.png") rfl⟩

/-- C2: building an empty file list never errors and serializes the 4-byte
magic `NMRS`, little-endian u16 version major 1 and minor 0, little-endian
u32 resource count 0, and a trailing 32-byte footer beginning with the
4-byte magic `NMRF`. -/
theorem buildPack_empty_format (bs : BuildSystem) (now : Nat)
    (key : List Nat) (outPath : String) (encrypt compress : Bool) :
    ∃ bytes,
      buildPack bs now key outPath [] encrypt compress = Except.ok bytes ∧
      bytes.take 4 = asciiBytes "NMRS" ∧
      (bytes.drop 4).take 2 = [1, 0] ∧
      (bytes.drop 6).take 2 = [0, 0] ∧
      (bytes.drop 8).take 4 = [0, 0, 0, 0] ∧
      32 ≤ bytes.length ∧
      (bytes.drop (bytes.length - 32)).take 4 = asciiBytes "NMRF" := by
  refine ⟨_, rfl, rfl, rfl, rfl, rfl, ?_, rfl⟩
  show (32 : Nat) ≤ 44
  decide

/-- Witness for C2 at concrete inputs. -/
theorem buildPack_empty_witness :
    ∃ bytes,
      buildPack init 0 [] "out" [] false false = Except.ok bytes ∧
      bytes.take 4 = asciiBytes "NMRS" ∧
      (bytes.drop 4).take 2 = [1, 0] ∧
      (bytes.drop 6).take 2 = [0, 0] ∧
      (bytes.drop 8).take 4 = [0, 0, 0, 0] ∧
      32 ≤ bytes.length ∧
      (bytes.drop (bytes.length - 32)).take 4 = asciiBytes "NMRF" :=
  buildPack_empty_format init 0 [] "out" false false

/-- Witness for C7 at a concrete byte string. -/
theorem compressData_none_witness :
    compressData (asciiBytes "AAAA") CompressionLevel.None =
      Except.ok (asciiBytes "AAAA") :=
  compressData_none_identity (asciiBytes "AAAA")

lemma normByte_normByte (b : Nat) : normByte (normByte b) = normByte b := by
  unfold normByte lowerByte
  split_ifs <;> omega

lemma normByte_ne_backslash (b : Nat) : normByte b ≠ 92 := by
  unfold normByte lowerByte
  split_ifs <;> omega

lemma normByte_not_upper (b : Nat) : ¬(65 ≤ normByte b ∧ normByte b ≤ 90) := by
  unfold normByte lowerByte
  split_ifs <;> omega

lemma mem_normalizeVfsPath {p : List Nat} {x : Nat}
    (h : x ∈ normalizeVfsPath p) : ∃ b ∈ p, x = normByte b := by
  unfold normalizeVfsPath at h
  have h1 : x ∈ (p.map normByte).dropWhile (fun b => b = 47) :=
    (List.rdropWhile_prefix _ _).sublist.subset h
  have h2 : x ∈ p.map normByte :=
    (List.dropWhile_suffix _).sublist.subset h1
  obtain ⟨b, hb, rfl⟩ := List.mem_map.mp h2
  exact ⟨b, hb, rfl⟩

lemma map_normByte_normalizeVfsPath (p : List Nat) :
    (normalizeVfsPath p).map normByte = normalizeVfsPath p := by
  have hfix : ∀ x ∈ normalizeVfsPath p, normByte x = x := by
    intro x hx
    obtain ⟨b, _, rfl⟩ := mem_normalizeVfsPath hx
    exact normByte_normByte b
  rw [List.map_congr_left hfix]
  exact List.map_id _

lemma dropWhile_normalizeVfsPath (p : List Nat) :
    (normalizeVfsPath p).dropWhile (fun b => b = 47) = normalizeVfsPath p := by
  rw [List.dropWhile_eq_self_iff]
  intro hl
  unfold normalizeVfsPath at hl ⊢
  have hpre := List.rdropWhile_prefix (fun b => decide (b = 47))
    ((p.map normByte).dropWhile (fun b => b = 47))
  have hlen : 0 < ((p.map normByte).dropWhile (fun b => b = 47)).length :=
    lt_of_lt_of_le hl hpre.length_le
  have h0 := List.dropWhile_get_zero_not (fun b => decide (b = 47))
    (p.map normByte) hlen
  have hg :
      (((p.map normByte).dropWhile (fun b => b = 47)).rdropWhile
          (fun b => b = 47)).get ⟨0, hl⟩ =
      ((p.map normByte).dropWhile (fun b => b = 47)).get ⟨0, hlen⟩ := by
    simpa [List.get_eq_getElem] using hpre.getElem hl
  rw [hg]
  exact h0

lemma rdropWhile_normalizeVfsPath (p : List Nat) :
    (normalizeVfsPath p).rdropWhile (fun b => b = 47) = normalizeVfsPath p := by
  unfold normalizeVfsPath
  exact List.rdropWhile_idempotent _ _

lemma normalizeVfsPath_idem (p : List Nat) :
    normalizeVfsPath (normalizeVfsPath p) = normalizeVfsPath p := by
  conv_lhs => rw [normalizeVfsPath]
  rw [map_normByte_normalizeVfsPath, dropWhile_normalizeVfsPath,
    rdropWhile_normalizeVfsPath]

lemma normalizeVfsPath_head_ne (p : List Nat) :
    (normalizeVfsPath p).head? ≠ some 47 := by
  intro h
  cases hres : normalizeVfsPath p with
  | nil => rw [hres] at h; cases h
  | cons a t =>
    rw [hres] at h
    have ha : a = 47 := by simpa using h
    have hdw := dropWhile_normalizeVfsPath p
    rw [hres, ha, List.dropWhile_cons_of_pos (by simp)] at hdw
    have hle := (List.dropWhile_suffix (l := t) (fun b => b = 47)).sublist.length_le
    rw [hdw] at hle
    simp at hle

lemma normalizeVfsPath_getLast_ne (p : List Nat) :
    (normalizeVfsPath p).getLast? ≠ some 47 := by
  intro h
  have hne : normalizeVfsPath p ≠ [] := by
    intro hnil; rw [hnil] at h; cases h
  have hlast := List.rdropWhile_eq_self_iff.mp (rdropWhile_normalizeVfsPath p) hne
  rw [List.getLast?_eq_getLast_of_ne_nil hne] at h
  have h47 : (normalizeVfsPath p).getLast hne = 47 := by simpa using h
  simp [h47] at hlast

/-- C6: `normalizeVfsPath` replaces every backslash with a forward slash,
lower-cases the whole byte string (no ASCII uppercase remains), leaves no
leading and no trailing slash, maps the empty string to the empty string,
and is idempotent; e.g. `Assets\Images\BG.PNG` becomes
`assets/images/bg.png` and `assets/folder/` becomes `assets/folder`. -/
theorem normalizeVfsPath_normal_form (p : List Nat) :
    (∀ x ∈ normalizeVfsPath p, x ≠ 92) ∧
    (∀ x ∈ normalizeVfsPath p, ¬(65 ≤ x ∧ x ≤ 90)) ∧
    (normalizeVfsPath p).head? ≠ some 47 ∧
    (normalizeVfsPath p).getLast? ≠ some 47 ∧
    normalizeVfsPath [] = [] ∧
    normalizeVfsPath (normalizeVfsPath p) = normalizeVfsPath p ∧
    normalizeVfsPath (asciiBytes "Assets\\Images\\BG.PNG") =
      asciiBytes "assets/images/bg.png" ∧
    normalizeVfsPath (asciiBytes "assets/folder/") = asciiBytes "assets/folder" := by
  refine ⟨?_, ?_, normalizeVfsPath_head_ne p, normalizeVfsPath_getLast_ne p,
    rfl, normalizeVfsPath_idem p, by decide, by decide⟩
  · intro x hx
    obtain ⟨b, _, rfl⟩ := mem_normalizeVfsPath hx
    exact normByte_ne_backslash b
  · intro x hx
    obtain ⟨b, _, rfl⟩ := mem_normalizeVfsPath hx
    exact normByte_not_upper b

/-- Witness for C6 at a concrete path. -/
theorem normalizeVfsPath_witness :
    (97 : Nat) ≠ 92 ∧
    normalizeVfsPath (normalizeVfsPath (asciiBytes "/Assets/")) =
      normalizeVfsPath (asciiBytes "/Assets/") :=
  ⟨(normalizeVfsPath_normal_form (asciiBytes "/Assets/")).1 97 (by decide),
   (normalizeVfsPath_normal_form (asciiBytes "/Assets/")).2.2.2.2.2.1⟩

end Claims

end NovelMind
